import Mathlib

/-!
Verification of the `llm-phoenix-app` demonstration script (`main.py`).

The script is pure orchestration: it loads configuration from the
environment, registers a tracer, ensures a Qdrant collection named
"haikus" exists (size 1536, cosine distance), generates a haiku via a
chat-completion call, embeds it, upserts it with id 1, and searches for
similar haikus.  We embed the script shallowly: external services
(tracer registration, Qdrant connection, chat and embedding endpoints)
are oracles supplied by a `World`; the vector store itself is a pure
state (`VectorStore`), with upsert and cosine-ranked search modelled
from the spec, since the Qdrant client is a third-party dependency not
part of this repository.  Vectors are rational lists; cosine ranking is
represented by the order-isomorphic rational surrogate
sign(cos) * cos^2, which keeps every definition computable while
inducing exactly the cosine ordering (t maps to sign(t) * t^2 is
strictly monotone on the reals).
-/

/-- Errors surfaced by the script's external calls and partial operations. -/
inductive Err where
  | valueError (msg : String)
  | phoenixError (msg : String)
  | connectionError (msg : String)
  | apiError (msg : String)
  | keyError (key : String)
  | collectionNotFound (name : String)
  | indexError
deriving DecidableEq, Repr

/-- The four environment variables the script reads (`None` = unset). -/
structure Env where
  openai : Option String
  phoenixEp : Option String
  qhost : Option String
  qport : Option String
deriving DecidableEq, Repr

/-- Embeds `setup_environment`: reads `OPENAI_API_KEY` (required, falsy
values rejected) and the three optional variables with their defaults,
exactly as `os.getenv` with a default argument behaves. -/
def setup_environment (e : Env) : Except Err (String × String × String × String) :=
  let phoenixEndpoint := e.phoenixEp.getD "http://localhost:6006/v1/traces"
  let qdrantHost := e.qhost.getD "localhost"
  let qdrantPort := e.qport.getD "6333"
  match e.openai with
  | none => .error (.valueError "OPENAI_API_KEY not found in .env file")
  | some k =>
      if k = "" then .error (.valueError "OPENAI_API_KEY not found in .env file")
      else .ok (k, phoenixEndpoint, qdrantHost, qdrantPort)

/-- Similarity metric of a collection (the script only ever uses cosine). -/
inductive Distance where
  | cosine
  | euclid
  | dotProduct
deriving DecidableEq, Repr

/-- A stored point: caller-assigned integer id, vector, payload map. -/
structure Point where
  id : Nat
  vec : List ℚ
  payload : List (String × String)
deriving DecidableEq, Repr

/-- A named collection with fixed dimensionality and metric. -/
structure Collection where
  name : String
  size : Nat
  dist : Distance
  points : List Point
deriving DecidableEq, Repr

/-- Modelled from the spec: the visible state of the vector database —
its set of collections (Qdrant itself is not part of this repository). -/
structure VectorStore where
  collections : List Collection
deriving DecidableEq, Repr

/-- A `create_collection` call observed during `setup_qdrant`. -/
structure CreateCall where
  name : String
  size : Nat
  dist : Distance
deriving DecidableEq, Repr

/-- Whether a collection with the given name exists, as the script tests
it: `collection_name not in [c.name for c in collections]`. -/
def hasCollection (vs : VectorStore) (n : String) : Bool :=
  (vs.collections.map Collection.name).contains n

/-- The pure core of `setup_qdrant`: list collections, create "haikus"
with size 1536 and cosine distance only when missing.  Returns the new
state together with the `create_collection` calls issued. -/
def ensureCollection (vs : VectorStore) : VectorStore × List CreateCall :=
  if hasCollection vs "haikus" then (vs, [])
  else ({ collections := vs.collections ++ [⟨"haikus", 1536, .cosine, []⟩] },
        [⟨"haikus", 1536, .cosine⟩])

/-- Embeds `setup_qdrant`: a failed connection propagates; otherwise the
collection is ensured and `(client state, collection_name)` returned. -/
def setup_qdrant (conn : Except Err VectorStore) :
    Except Err (VectorStore × String × List CreateCall) :=
  conn.map fun vs => ((ensureCollection vs).1, "haikus", (ensureCollection vs).2)

/-- A chat message (`{"role": ..., "content": ...}`). -/
structure Msg where
  role : String
  content : String
deriving DecidableEq, Repr

/-- A chat-completion request: model identifier and message list. -/
structure ChatRequest where
  model : String
  messages : List Msg
deriving DecidableEq, Repr

/-- One choice of a chat-completion response. -/
structure Choice where
  message : Msg
deriving DecidableEq, Repr

/-- A chat-completion response: its list of choices. -/
structure ChatResponse where
  choices : List Choice
deriving DecidableEq, Repr

/-- The one request `generate_haiku` builds: model "gpt-4o", a single
user message with the fixed prompt. -/
def genRequest : ChatRequest :=
  ⟨"gpt-4o", [⟨"user", "Write a haiku about the ocean."⟩]⟩

/-- Embeds `generate_haiku`: sends `genRequest` to the chat oracle and
returns `response.choices[0].message.content`; indexing an empty choice
list is a runtime error.  Also returns the requests sent. -/
def generate_haiku (chat : ChatRequest → Except Err ChatResponse) :
    Except Err String × List ChatRequest :=
  (match chat genRequest with
   | .error e => .error e
   | .ok resp =>
       match resp.choices with
       | [] => .error .indexError
       | c :: _ => .ok c.message.content,
   [genRequest])

/-- An embedding request: model identifier and input text. -/
structure EmbedRequest where
  model : String
  input : String
deriving DecidableEq, Repr

/-- One datum of an embedding response. -/
structure EmbedDatum where
  embedding : List ℚ
deriving DecidableEq, Repr

/-- An embedding response: its data list. -/
structure EmbedResponse where
  data : List EmbedDatum
deriving DecidableEq, Repr

/-- Dot product of two rational vectors (truncating to the shorter). -/
def dot (a b : List ℚ) : ℚ :=
  (List.zipWith (· * ·) a b).sum

/-- Modelled from the spec: the similarity score Qdrant assigns under
the cosine metric, represented by the order-isomorphic rational
surrogate sign(cos(a,q)) * cos(a,q)^2, so that ranking by this value is
exactly ranking by cosine similarity while staying computable (cosine
itself needs a square root).  A zero vector on either side scores 0. -/
def score (a q : List ℚ) : ℚ :=
  let x := dot a q
  let d := dot a a * dot q q
  if d = 0 then 0 else if 0 ≤ x then x ^ 2 / d else -(x ^ 2 / d)

/-- Ranking relation used by search: `p` comes before `p'` when its
score against the query is at least as large. -/
def byScore (q : List ℚ) : Point → Point → Prop :=
  fun p p' => score p'.vec q ≤ score p.vec q

instance (q : List ℚ) : DecidableRel (byScore q) :=
  fun a b => decidable_of_iff (score b.vec q ≤ score a.vec q) Iff.rfl

instance (q : List ℚ) : IsTotal Point (byScore q) :=
  ⟨fun a b => le_total (score b.vec q) (score a.vec q)⟩

instance (q : List ℚ) : IsTrans Point (byScore q) :=
  ⟨fun _ _ _ h1 h2 => le_trans h2 h1⟩

/-- Lookup of a key in a payload map. -/
def lookupKey (pl : List (String × String)) (k : String) : Option String :=
  (pl.find? (fun kv => kv.1 = k)).map Prod.snd

/-- Finds a collection by name, as the client addresses collections. -/
def findCollection (vs : VectorStore) (n : String) : Option Collection :=
  vs.collections.find? (fun c => c.name = n)

/-- Replaces the named collection's contents, leaving the rest alone. -/
def updateCollection (vs : VectorStore) (n : String) (f : Collection → Collection) :
    VectorStore :=
  ⟨vs.collections.map fun c => if c.name = n then f c else c⟩

/-- Modelled from the spec: Qdrant point upsert — an insert that
silently overwrites any existing point sharing the identifier and
leaves every other point unchanged. -/
def upsertPoint (pts : List Point) (pid : Nat) (v : List ℚ)
    (pl : List (String × String)) : List Point :=
  if pts.any (fun p => p.id = pid) then
    pts.map fun p => if p.id = pid then ⟨pid, v, pl⟩ else p
  else pts ++ [⟨pid, v, pl⟩]

/-- Embeds `store_in_qdrant`: upserts one point whose payload maps
"haiku" to the text; upserting into a missing collection is an error. -/
def store_in_qdrant (vs : VectorStore) (cname : String) (haiku : String)
    (embedding : List ℚ) (pid : Nat) : Except Err VectorStore :=
  match findCollection vs cname with
  | none => .error (.collectionNotFound cname)
  | some _ =>
      .ok (updateCollection vs cname fun c =>
        { c with points := upsertPoint c.points pid embedding [("haiku", haiku)] })

/-- Modelled from the spec: the hits a similarity search returns — the
collection's points ranked by descending score, cut to `limit`. -/
def searchHits (c : Collection) (q : List ℚ) (limit : Nat) : List Point :=
  (c.points.insertionSort (byScore q)).take limit

/-- Embeds the list comprehension
`[(hit.payload["haiku"], hit.score) for hit in search_result]`:
builds the result pairs left to right, raising a key error at the first
hit whose payload lacks "haiku". -/
def buildResults (q : List ℚ) : List Point → Except Err (List (String × ℚ))
  | [] => .ok []
  | h :: t =>
      match lookupKey h.payload "haiku" with
      | none => .error (.keyError "haiku")
      | some txt =>
          match buildResults q t with
          | .error e => .error e
          | .ok rest => .ok ((txt, score h.vec q) :: rest)

/-- Embeds `search_similar_haikus`: query the named collection for the
top-`limit` nearest points and return (text, score) pairs. -/
def search_similar_haikus (vs : VectorStore) (cname : String) (q : List ℚ)
    (limit : Nat) : Except Err (List (String × ℚ)) :=
  match findCollection vs cname with
  | none => .error (.collectionNotFound cname)
  | some c => buildResults q (searchHits c q limit)

/-- The request `generate_embedding` builds for a given text. -/
def embedRequest (text : String) : EmbedRequest :=
  ⟨"text-embedding-ada-002", text⟩

/-- Embeds `generate_embedding`: sends the text to the embedding oracle
and returns `response.data[0].embedding`. -/
def generate_embedding (embed : EmbedRequest → Except Err EmbedResponse)
    (text : String) : Except Err (List ℚ) × List EmbedRequest :=
  (match embed (embedRequest text) with
   | .error e => .error e
   | .ok resp =>
       match resp.data with
       | [] => .error .indexError
       | d :: _ => .ok d.embedding,
   [embedRequest text])

/-- The external world the script runs against: the process environment
and one oracle per external service call.  `upsertInject` and
`searchInject` inject simulated client failures into the storage and
search calls (the pure vector-store model cannot fail on its own). -/
structure World where
  env : Env
  register : String → Except Err Unit
  connect : String → String → Except Err VectorStore
  chat : ChatRequest → Except Err ChatResponse
  embed : EmbedRequest → Except Err EmbedResponse
  upsertInject : Option Err
  searchInject : Option Err

/-- One executed step of the pipeline, as recorded in the run trace. -/
inductive Step where
  | env
  | phoenix
  | qdrant
  | gen
  | embed
  | store (pid : Nat)
  | search
deriving DecidableEq, Repr

/-- The full pipeline, in execution order. -/
def allSteps : List Step :=
  [.env, .phoenix, .qdrant, .gen, .embed, .store 1, .search]

/-- Embeds `main`: the strictly sequential pipeline.  Returns the
result (the haiku and the search results, or the first error) together
with the trace of steps that were executed. -/
def mainRun (w : World) :
    Except Err (String × List (String × ℚ)) × List Step :=
  match setup_environment w.env with
  | .error e => (.error e, [.env])
  | .ok (_apiKey, phoenixEndpoint, qdrantHost, qdrantPort) =>
    match w.register phoenixEndpoint with
    | .error e => (.error e, [.env, .phoenix])
    | .ok _ =>
      match setup_qdrant (w.connect qdrantHost qdrantPort) with
      | .error e => (.error e, [.env, .phoenix, .qdrant])
      | .ok (vs, collectionName, _calls) =>
        match (generate_haiku w.chat).1 with
        | .error e => (.error e, [.env, .phoenix, .qdrant, .gen])
        | .ok haiku =>
          match (generate_embedding w.embed haiku).1 with
          | .error e => (.error e, [.env, .phoenix, .qdrant, .gen, .embed])
          | .ok embedding =>
            match (match w.upsertInject with
                   | some e => .error e
                   | none => store_in_qdrant vs collectionName haiku embedding 1 :
                     Except Err VectorStore) with
            | .error e => (.error e, [.env, .phoenix, .qdrant, .gen, .embed, .store 1])
            | .ok vs2 =>
              match (match w.searchInject with
                     | some e => .error e
                     | none => search_similar_haikus vs2 collectionName embedding 2 :
                       Except Err (List (String × ℚ))) with
              | .error e => (.error e, allSteps)
              | .ok res => (.ok (haiku, res), allSteps)

theorem dot_nil_left (b : List ℚ) : dot [] b = 0 := by
  simp [dot]

theorem dot_nil_right (a : List ℚ) : dot a [] = 0 := by
  cases a <;> simp [dot]

theorem dot_cons (x y : ℚ) (a b : List ℚ) :
    dot (x :: a) (y :: b) = x * y + dot a b := by
  simp [dot]

theorem dot_self_nonneg (a : List ℚ) : 0 ≤ dot a a := by
  induction a with
  | nil => simp [dot]
  | cons x t ih =>
      rw [dot_cons]
      have := mul_self_nonneg x
      linarith

/-- Cauchy–Schwarz for the truncating list dot product. -/
theorem dot_cauchy (a b : List ℚ) : (dot a b) ^ 2 ≤ dot a a * dot b b := by
  induction a generalizing b with
  | nil => simp [dot_nil_left]
  | cons x t ih =>
      cases b with
      | nil =>
          simp [dot_nil_right]
      | cons y u =>
          have IH := ih u
          have hP := dot_self_nonneg t
          have hQ := dot_self_nonneg u
          rw [dot_cons, dot_cons, dot_cons]
          rcases eq_or_lt_of_le hP with hP0 | hPpos
          · have hD : dot t u = 0 := by
              have h1 : (dot t u) ^ 2 ≤ 0 := by rw [← hP0] at IH; linarith
              have h2 : 0 ≤ (dot t u) ^ 2 := sq_nonneg _
              nlinarith
            rw [← hP0, hD]
            nlinarith [mul_nonneg (mul_self_nonneg x) hQ, mul_self_nonneg y,
              mul_self_nonneg x]
          · nlinarith [sq_nonneg (x * dot t u - y * dot t t),
              mul_nonneg (add_nonneg (sq_nonneg x) hP) (by linarith : (0:ℚ) ≤ dot t t * dot u u - (dot t u) ^ 2)]

/-- Every score is at most 1: the surrogate of cosine similarity never
exceeds the self-similarity value. -/
theorem score_le_one (a q : List ℚ) : score a q ≤ 1 := by
  unfold score
  by_cases hd : dot a a * dot q q = 0
  · simp [hd]
  · simp only [hd, if_false]
    have hdpos : 0 < dot a a * dot q q :=
      lt_of_le_of_ne (mul_nonneg (dot_self_nonneg a) (dot_self_nonneg q)) (Ne.symm hd)
    by_cases hx : 0 ≤ dot a q
    · simp only [hx, if_true]
      rw [div_le_one hdpos]
      exact dot_cauchy a q
    · simp only [hx, if_false]
      have : 0 ≤ (dot a q) ^ 2 / (dot a a * dot q q) :=
        div_nonneg (sq_nonneg _) (le_of_lt hdpos)
      linarith

/-- A nonzero vector scores exactly 1 against itself. -/
theorem score_self (q : List ℚ) (hq : dot q q ≠ 0) : score q q = 1 := by
  unfold score
  have hqpos : 0 < dot q q := lt_of_le_of_ne (dot_self_nonneg q) (Ne.symm hq)
  have hd : dot q q * dot q q ≠ 0 := mul_ne_zero hq hq
  simp only [hd, if_false, le_of_lt hqpos, if_true]
  rw [sq]
  exact div_self hd

theorem buildResults_ok_length (q : List ℚ) (l : List Point)
    (res : List (String × ℚ)) (h : buildResults q l = .ok res) :
    res.length = l.length := by
  induction l generalizing res with
  | nil =>
      simp [buildResults] at h
      simp [← h]
  | cons p t ih =>
      unfold buildResults at h
      cases hk : lookupKey p.payload "haiku" with
      | none => rw [hk] at h; exact absurd h (by simp)
      | some txt =>
          rw [hk] at h
          cases hr : buildResults q t with
          | error e => rw [hr] at h; exact absurd h (by simp)
          | ok rest =>
              rw [hr] at h
              simp only [Except.ok.injEq] at h
              rw [← h]
              simp [ih rest hr]

theorem buildResults_ok_scores (q : List ℚ) (l : List Point)
    (res : List (String × ℚ)) (h : buildResults q l = .ok res) :
    res.map Prod.snd = l.map (fun p => score p.vec q) := by
  induction l generalizing res with
  | nil =>
      simp [buildResults] at h
      simp [← h]
  | cons p t ih =>
      unfold buildResults at h
      cases hk : lookupKey p.payload "haiku" with
      | none => rw [hk] at h; exact absurd h (by simp)
      | some txt =>
          rw [hk] at h
          cases hr : buildResults q t with
          | error e => rw [hr] at h; exact absurd h (by simp)
          | ok rest =>
              rw [hr] at h
              simp only [Except.ok.injEq] at h
              rw [← h]
              simp [ih rest hr]

theorem buildResults_cons_ok (q : List ℚ) (p : Point) (t : List Point)
    (res : List (String × ℚ)) (h : buildResults q (p :: t) = .ok res) :
    ∃ txt rest, lookupKey p.payload "haiku" = some txt ∧
      res = (txt, score p.vec q) :: rest := by
  unfold buildResults at h
  cases hk : lookupKey p.payload "haiku" with
  | none => rw [hk] at h; exact absurd h (by simp)
  | some txt =>
      rw [hk] at h
      cases hr : buildResults q t with
      | error e => rw [hr] at h; exact absurd h (by simp)
      | ok rest =>
          rw [hr] at h
          simp only [Except.ok.injEq] at h
          exact ⟨txt, rest, rfl, h.symm⟩

theorem buildResults_error_of_missing (q : List ℚ) (l : List Point)
    (p : Point) (hp : p ∈ l) (hk : lookupKey p.payload "haiku" = none) :
    buildResults q l = .error (.keyError "haiku") := by
  induction l with
  | nil => cases hp
  | cons a t ih =>
      rcases List.mem_cons.mp hp with h | h
      · subst h
        unfold buildResults
        rw [hk]
      · unfold buildResults
        cases ha : lookupKey a.payload "haiku" with
        | none => rfl
        | some txt => rw [ih h]

theorem searchHits_sorted (c : Collection) (q : List ℚ) (limit : Nat) :
    List.Sorted (byScore q) (searchHits c q limit) :=
  (List.sorted_insertionSort (byScore q) c.points).sublist (List.take_sublist _ _)

theorem searchHits_length_le (c : Collection) (q : List ℚ) (limit : Nat) :
    (searchHits c q limit).length ≤ limit := by
  unfold searchHits
  rw [List.length_take]
  exact min_le_left _ _

theorem searchHits_perm_take (c : Collection) (q : List ℚ) (limit : Nat)
    (h : c.points.length ≤ limit) :
    ∀ p, p ∈ searchHits c q limit ↔ p ∈ c.points := by
  intro p
  unfold searchHits
  rw [List.take_of_length_le (by rw [List.length_insertionSort]; exact h)]
  exact (List.perm_insertionSort (byScore q) c.points).mem_iff

theorem upsertPoint_mem (pts : List Point) (pid : Nat) (v : List ℚ)
    (pl : List (String × String)) (p : Point)
    (hp : p ∈ upsertPoint pts pid v pl) :
    p = ⟨pid, v, pl⟩ ∨ (p ∈ pts ∧ p.id ≠ pid) := by
  unfold upsertPoint at hp
  by_cases hany : pts.any (fun p => p.id = pid)
  · rw [if_pos hany] at hp
    rcases List.mem_map.mp hp with ⟨p0, hp0, hep⟩
    by_cases hid : p0.id = pid
    · rw [if_pos hid] at hep
      exact Or.inl hep.symm
    · rw [if_neg hid] at hep
      exact Or.inr ⟨hep ▸ hp0, hep ▸ hid⟩
  · rw [if_neg hany] at hp
    rcases List.mem_append.mp hp with h | h
    · refine Or.inr ⟨h, ?_⟩
      simp only [List.any_eq_true, not_exists, not_and] at hany
      intro hc
      exact hany p h (by simp [hc])
    · simp only [List.mem_singleton] at h
      exact Or.inl h

theorem upsertPoint_self_mem (pts : List Point) (pid : Nat) (v : List ℚ)
    (pl : List (String × String)) :
    (⟨pid, v, pl⟩ : Point) ∈ upsertPoint pts pid v pl := by
  unfold upsertPoint
  by_cases hany : pts.any (fun p => p.id = pid)
  · rw [if_pos hany]
    rcases List.any_eq_true.mp hany with ⟨p0, hp0, hid⟩
    simp only [decide_eq_true_eq] at hid
    exact List.mem_map.mpr ⟨p0, hp0, by rw [if_pos hid]⟩
  · rw [if_neg hany]
    exact List.mem_append.mpr (Or.inr (List.mem_singleton.mpr rfl))

theorem upsertPoint_preserves (pts : List Point) (pid : Nat) (v : List ℚ)
    (pl : List (String × String)) (p : Point) (hp : p ∈ pts) (hid : p.id ≠ pid) :
    p ∈ upsertPoint pts pid v pl := by
  unfold upsertPoint
  by_cases hany : pts.any (fun p => p.id = pid)
  · rw [if_pos hany]
    exact List.mem_map.mpr ⟨p, hp, by rw [if_neg hid]⟩
  · rw [if_neg hany]
    exact List.mem_append.mpr (Or.inl hp)

theorem upsertPoint_length (pts : List Point) (pid : Nat) (v : List ℚ)
    (pl : List (String × String)) :
    (upsertPoint pts pid v pl).length =
      if pts.any (fun p => p.id = pid) then pts.length else pts.length + 1 := by
  unfold upsertPoint
  by_cases hany : pts.any (fun p => p.id = pid) <;> simp [hany]

theorem findCollection_update (vs : VectorStore) (n : String)
    (f : Collection → Collection) (hf : ∀ c, (f c).name = c.name) :
    findCollection (updateCollection vs n f) n = (findCollection vs n).map f := by
  unfold findCollection updateCollection
  induction vs.collections with
  | nil => simp
  | cons c cs ih =>
      by_cases hc : c.name = n
      · simp [List.find?_cons, hc, hf c]
      · simp only [List.map_cons, if_neg hc]
        rw [List.find?_cons_of_neg _ (by simp [hc]), List.find?_cons_of_neg _ (by simp [hc])]
        exact ih

theorem mainRun_trace_take (w : World) : ∃ k, (mainRun w).2 = allSteps.take k := by
  unfold mainRun
  repeat' split
  all_goals first
  | exact ⟨1, rfl⟩ | exact ⟨2, rfl⟩ | exact ⟨3, rfl⟩ | exact ⟨4, rfl⟩
  | exact ⟨5, rfl⟩ | exact ⟨6, rfl⟩ | exact ⟨7, rfl⟩

/-- C8: `setup_environment` returns the configured values, applying the
documented defaults exactly when a variable is unset and passing set
values through unchanged (no validation of URL or port format). -/
theorem C8_env_defaults (e : Env) (k : String)
    (hk : e.openai = some k) (hne : k ≠ "") :
    setup_environment e =
      .ok (k, e.phoenixEp.getD "http://localhost:6006/v1/traces",
           e.qhost.getD "localhost", e.qport.getD "6333") := by
  unfold setup_environment
  rw [hk]
  simp [hne]

theorem C8_env_defaults_witness :
    setup_environment ⟨some "sk-test", none, some "qdrant.internal", none⟩ =
      .ok ("sk-test", "http://localhost:6006/v1/traces", "qdrant.internal", "6333") :=
  C8_env_defaults ⟨some "sk-test", none, some "qdrant.internal", none⟩ "sk-test" rfl
    (by decide)

/-- C9: an `OPENAI_API_KEY` set to the empty string is rejected with
the same configuration error as an absent one — the falsy check
`if not api_key` does not distinguish the two. -/
theorem C9_empty_key_rejected (e : Env) (hk : e.openai = some "") :
    setup_environment e =
      .error (.valueError "OPENAI_API_KEY not found in .env file") ∧
    setup_environment e = setup_environment { e with openai := none } := by
  constructor
  · unfold setup_environment
    rw [hk]
    simp
  · unfold setup_environment
    rw [hk]
    simp

theorem C9_empty_key_rejected_witness :
    setup_environment ⟨some "", none, none, none⟩ =
      .error (.valueError "OPENAI_API_KEY not found in .env file") :=
  (C9_empty_key_rejected ⟨some "", none, none, none⟩ rfl).1

/-- C1: `setup_qdrant` creates the "haikus" collection iff it is
missing; when it creates it, it does so with exactly one call, with
vector size 1536 and cosine distance; when it is present, no creation
call is made and the state is untouched; a second run on the resulting
state creates nothing, so the setup is idempotent on the collection
set. -/
theorem C1_setup_qdrant_idempotent (vs : VectorStore) :
    (hasCollection vs "haikus" = false →
       (ensureCollection vs).2 = [⟨"haikus", 1536, .cosine⟩] ∧
       hasCollection (ensureCollection vs).1 "haikus" = true) ∧
    (hasCollection vs "haikus" = true →
       (ensureCollection vs).2 = [] ∧ (ensureCollection vs).1 = vs) ∧
    ((ensureCollection vs).2 ≠ [] ↔ hasCollection vs "haikus" = false) ∧
    ensureCollection (ensureCollection vs).1 = ((ensureCollection vs).1, []) ∧
    setup_qdrant (.ok vs) =
      .ok ((ensureCollection vs).1, "haikus", (ensureCollection vs).2) := by
  by_cases h : hasCollection vs "haikus"
  · have h2 : (ensureCollection vs).2 = [] ∧ (ensureCollection vs).1 = vs := by
      unfold ensureCollection
      rw [if_pos h]
      exact ⟨rfl, rfl⟩
    refine ⟨?_, fun _ => h2, ?_, ?_, rfl⟩
    · intro hf
      rw [h] at hf
      cases hf
    · rw [h2.1]
      simp [h]
    · rw [h2.2]
      unfold ensureCollection
      rw [if_pos h]
  · have hf : hasCollection vs "haikus" = false := by
      simpa using h
    have hens : ensureCollection vs =
        ({ collections := vs.collections ++ [⟨"haikus", 1536, .cosine, []⟩] },
         [⟨"haikus", 1536, .cosine⟩]) := by
      unfold ensureCollection
      rw [if_neg (by simp [hf])]
    have hmem : hasCollection (ensureCollection vs).1 "haikus" = true := by
      rw [hens]
      simp [hasCollection]
    refine ⟨fun _ => ⟨by rw [hens], hmem⟩, ?_, ?_, ?_, rfl⟩
    · intro ht
      rw [hf] at ht
      cases ht
    · rw [hens]
      simp [hf]
    · have hstep : ∀ x : VectorStore, hasCollection x "haikus" = true →
          ensureCollection x = (x, []) := by
        intro x hx
        unfold ensureCollection
        rw [if_pos hx]
      exact hstep _ hmem

theorem C1_setup_qdrant_idempotent_witness :
    (ensureCollection ⟨[]⟩).2 = [⟨"haikus", 1536, .cosine⟩] ∧
    hasCollection (ensureCollection ⟨[]⟩).1 "haikus" = true :=
  (C1_setup_qdrant_idempotent ⟨[]⟩).1 (by decide)

/-- C7: `generate_haiku` sends exactly one chat-completion request,
whose single user message is the fixed ocean prompt, and on a
successful response returns the content of the first choice. -/
theorem C7_generate_haiku_fixed_prompt
    (chat : ChatRequest → Except Err ChatResponse) :
    (generate_haiku chat).2 =
      [⟨"gpt-4o", [⟨"user", "Write a haiku about the ocean."⟩]⟩] ∧
    (∀ resp c rest, chat genRequest = .ok resp → resp.choices = c :: rest →
       (generate_haiku chat).1 = .ok c.message.content) := by
  refine ⟨rfl, ?_⟩
  intro resp c rest hok hch
  simp only [generate_haiku, hok, hch]

theorem C7_generate_haiku_fixed_prompt_witness :
    (generate_haiku fun _ => .ok ⟨[⟨⟨"assistant", "waves"⟩⟩]⟩).1 = .ok "waves" :=
  (C7_generate_haiku_fixed_prompt fun _ => .ok ⟨[⟨⟨"assistant", "waves"⟩⟩]⟩).2
    ⟨[⟨⟨"assistant", "waves"⟩⟩]⟩ ⟨⟨"assistant", "waves"⟩⟩ [] rfl rfl

/-- C4: when `OPENAI_API_KEY` is absent, the run fails inside
`setup_environment` with the configuration error, and no network step
(tracer registration, vector-store connection, model or embedding
call, storage, search) is ever executed. -/
theorem C4_missing_key_fails_first (w : World) (h : w.env.openai = none) :
    mainRun w =
      (.error (.valueError "OPENAI_API_KEY not found in .env file"), [Step.env]) ∧
    Step.phoenix ∉ (mainRun w).2 ∧ Step.qdrant ∉ (mainRun w).2 ∧
    Step.gen ∉ (mainRun w).2 ∧ Step.embed ∉ (mainRun w).2 ∧
    (∀ i, Step.store i ∉ (mainRun w).2) ∧ Step.search ∉ (mainRun w).2 := by
  have henv : setup_environment w.env =
      .error (.valueError "OPENAI_API_KEY not found in .env file") := by
    unfold setup_environment
    rw [h]
  have hm : mainRun w =
      (.error (.valueError "OPENAI_API_KEY not found in .env file"), [Step.env]) := by
    unfold mainRun
    rw [henv]
  refine ⟨hm, ?_, ?_, ?_, ?_, ?_, ?_⟩ <;> rw [hm] <;> simp

/-- A world whose environment lacks the API key (for the C4 witness). -/
def c4World : World :=
  { env := ⟨none, some "http://phoenix:6006/v1/traces", none, none⟩
    register := fun _ => .ok ()
    connect := fun _ _ => .ok ⟨[]⟩
    chat := fun _ => .ok ⟨[⟨⟨"assistant", "waves"⟩⟩]⟩
    embed := fun _ => .ok ⟨[⟨[1]⟩]⟩
    upsertInject := none
    searchInject := none }

theorem C4_missing_key_fails_first_witness :
    mainRun c4World =
      (.error (.valueError "OPENAI_API_KEY not found in .env file"), [Step.env]) :=
  (C4_missing_key_fails_first c4World rfl).1

/-- C5: whenever `search_similar_haikus` returns a result list, it has
at most `limit` entries and is ordered by non-increasing score. -/
theorem C5_search_bounded_sorted (vs : VectorStore) (cname : String)
    (q : List ℚ) (limit : Nat) (res : List (String × ℚ))
    (h : search_similar_haikus vs cname q limit = .ok res) :
    res.length ≤ limit ∧
    List.Sorted (fun a b : String × ℚ => b.2 ≤ a.2) res := by
  unfold search_similar_haikus at h
  cases hc : findCollection vs cname with
  | none => rw [hc] at h; exact absurd h (by simp)
  | some c =>
      rw [hc] at h
      constructor
      · calc res.length = (searchHits c q limit).length :=
              buildResults_ok_length q _ res h
          _ ≤ limit := searchHits_length_le c q limit
      · have hscores : res.map Prod.snd =
            (searchHits c q limit).map (fun p => score p.vec q) :=
          buildResults_ok_scores q _ res h
        have hsorted : List.Sorted (byScore q) (searchHits c q limit) :=
          searchHits_sorted c q limit
        have hmap : List.Pairwise (fun x y : ℚ => y ≤ x)
            ((searchHits c q limit).map (fun p => score p.vec q)) := by
          rw [List.pairwise_map]
          exact hsorted
        rw [← hscores, List.pairwise_map] at hmap
        exact hmap

/-- A two-point store for the C5 witness: scores 1 and -1 against [1]. -/
def c5Vs : VectorStore :=
  ⟨[⟨"haikus", 1536, .cosine,
     [⟨1, [1], [("haiku", "first")]⟩, ⟨2, [-1], [("haiku", "second")]⟩]⟩]⟩

theorem C5_search_bounded_sorted_witness :
    ([(("first" : String), (1 : ℚ)), ("second", -1)]).length ≤ 2 ∧
    List.Sorted (fun a b : String × ℚ => b.2 ≤ a.2)
      [(("first" : String), (1 : ℚ)), ("second", -1)] :=
  C5_search_bounded_sorted c5Vs "haikus" [1] 2
    [("first", 1), ("second", -1)]
    (by norm_num [search_similar_haikus, findCollection, searchHits, buildResults,
      lookupKey, List.insertionSort, List.orderedInsert, byScore, score, dot, c5Vs])

/-- C10: if any hit selected by the search lacks the "haiku" payload
key, the result construction fails with a key error instead of
returning a pair for that hit. -/
theorem C10_missing_payload_key_errors (vs : VectorStore) (cname : String)
    (q : List ℚ) (limit : Nat) (c : Collection) (p : Point)
    (hc : findCollection vs cname = some c)
    (hp : p ∈ searchHits c q limit)
    (hk : lookupKey p.payload "haiku" = none) :
    search_similar_haikus vs cname q limit = .error (.keyError "haiku") := by
  unfold search_similar_haikus
  rw [hc]
  exact buildResults_error_of_missing q _ p hp hk

/-- A store whose only point lacks the "haiku" key (for the C10 witness). -/
def c10Vs : VectorStore :=
  ⟨[⟨"haikus", 1536, .cosine, [⟨7, [1], [("poem", "oops")]⟩]⟩]⟩

theorem C10_missing_payload_key_errors_witness :
    search_similar_haikus c10Vs "haikus" [1] 2 = .error (.keyError "haiku") :=
  C10_missing_payload_key_errors c10Vs "haikus" [1] 2
    ⟨"haikus", 1536, .cosine, [⟨7, [1], [("poem", "oops")]⟩]⟩
    ⟨7, [1], [("poem", "oops")]⟩
    (by norm_num [findCollection, c10Vs])
    (by norm_num [searchHits, List.insertionSort, List.orderedInsert, byScore,
      score, dot])
    (by norm_num [lookupKey]; exact fun h => absurd h (by decide))

/-- C6: `store_in_qdrant` upserts exactly one (id, vector, payload)
triple: the point with the given id now carries the new vector and the
payload mapping "haiku" to the text, any previous point with that id is
silently overwritten, points with other ids are untouched, the point
count grows only when the id was absent, and the entry point only ever
stores with point_id = 1. -/
theorem C6_store_upserts_single (vs : VectorStore) (c : Collection)
    (cname haiku : String) (emb : List ℚ) (pid : Nat)
    (hc : findCollection vs cname = some c) :
    store_in_qdrant vs cname haiku emb pid =
      .ok (updateCollection vs cname fun c0 =>
        { c0 with points := upsertPoint c0.points pid emb [("haiku", haiku)] }) ∧
    (⟨pid, emb, [("haiku", haiku)]⟩ : Point) ∈
      upsertPoint c.points pid emb [("haiku", haiku)] ∧
    (∀ p ∈ upsertPoint c.points pid emb [("haiku", haiku)], p.id = pid →
       p = ⟨pid, emb, [("haiku", haiku)]⟩) ∧
    (∀ p ∈ upsertPoint c.points pid emb [("haiku", haiku)], p.id ≠ pid →
       p ∈ c.points) ∧
    (∀ p ∈ c.points, p.id ≠ pid →
       p ∈ upsertPoint c.points pid emb [("haiku", haiku)]) ∧
    lookupKey [("haiku", haiku)] "haiku" = some haiku ∧
    (upsertPoint c.points pid emb [("haiku", haiku)]).length =
      (if c.points.any (fun p => p.id = pid) then c.points.length
       else c.points.length + 1) ∧
    (∀ w i, Step.store i ∈ (mainRun w).2 → i = 1) := by
  refine ⟨?_, upsertPoint_self_mem _ _ _ _, ?_, ?_,
    upsertPoint_preserves _ _ _ _, by simp [lookupKey],
    upsertPoint_length _ _ _ _, ?_⟩
  · unfold store_in_qdrant
    rw [hc]
  · intro p hp hid
    rcases upsertPoint_mem _ _ _ _ p hp with he | ⟨_, hne⟩
    · exact he
    · exact absurd hid hne
  · intro p hp hid
    rcases upsertPoint_mem _ _ _ _ p hp with he | ⟨hmem, _⟩
    · exact absurd (by rw [he]) hid
    · exact hmem
  · intro w i hmem
    obtain ⟨k, hk⟩ := mainRun_trace_take w
    rw [hk] at hmem
    have hall : Step.store i ∈ allSteps :=
      (List.take_sublist k allSteps).subset hmem
    simp [allSteps] at hall
    exact hall

/-- A one-point store for the C6 witness. -/
def c6Vs : VectorStore :=
  ⟨[⟨"haikus", 1536, .cosine, [⟨1, [5], [("haiku", "old")]⟩]⟩]⟩

theorem C6_store_upserts_single_witness :
    (⟨1, [7], [("haiku", "new")]⟩ : Point) ∈
      upsertPoint [⟨1, [5], [("haiku", "old")]⟩] 1 [7] [("haiku", "new")] ∧
    lookupKey [("haiku", "new")] "haiku" = some "new" :=
  ⟨(C6_store_upserts_single c6Vs ⟨"haikus", 1536, .cosine,
      [⟨1, [5], [("haiku", "old")]⟩]⟩ "haikus" "new" [7] 1
      (by norm_num [findCollection, c6Vs])).2.1,
   (C6_store_upserts_single c6Vs ⟨"haikus", 1536, .cosine,
      [⟨1, [5], [("haiku", "old")]⟩]⟩ "haikus" "new" [7] 1
      (by norm_num [findCollection, c6Vs])).2.2.2.2.2.1⟩

/-- C2: the pipeline is strictly sequential and fail-fast.  The trace
of executed steps is always an in-order prefix of the pipeline, and a
failure at any step (environment, tracer registration, vector-store
connection, generation, embedding, injected storage failure, injected
search failure) propagates that very error out of `main` with no
later step executed; in particular a failed generation call prevents
any embedding, storage, or search call. -/
theorem C2_error_propagation (w : World) :
    (∃ k, (mainRun w).2 = allSteps.take k) ∧
    (∀ e, setup_environment w.env = .error e →
       mainRun w = (.error e, allSteps.take 1)) ∧
    (∀ e k ep qh qp, setup_environment w.env = .ok (k, ep, qh, qp) →
       w.register ep = .error e →
       mainRun w = (.error e, allSteps.take 2)) ∧
    (∀ e k ep qh qp, setup_environment w.env = .ok (k, ep, qh, qp) →
       w.register ep = .ok () →
       w.connect qh qp = .error e →
       mainRun w = (.error e, allSteps.take 3)) ∧
    (∀ e k ep qh qp vs0, setup_environment w.env = .ok (k, ep, qh, qp) →
       w.register ep = .ok () →
       w.connect qh qp = .ok vs0 →
       w.chat genRequest = .error e →
       mainRun w = (.error e, allSteps.take 4) ∧
       Step.embed ∉ (mainRun w).2 ∧ Step.store 1 ∉ (mainRun w).2 ∧
       Step.search ∉ (mainRun w).2) ∧
    (∀ e k ep qh qp vs0 haiku, setup_environment w.env = .ok (k, ep, qh, qp) →
       w.register ep = .ok () →
       w.connect qh qp = .ok vs0 →
       (generate_haiku w.chat).1 = .ok haiku →
       (generate_embedding w.embed haiku).1 = .error e →
       mainRun w = (.error e, allSteps.take 5)) ∧
    (∀ e k ep qh qp vs0 haiku emb,
       setup_environment w.env = .ok (k, ep, qh, qp) →
       w.register ep = .ok () →
       w.connect qh qp = .ok vs0 →
       (generate_haiku w.chat).1 = .ok haiku →
       (generate_embedding w.embed haiku).1 = .ok emb →
       w.upsertInject = some e →
       mainRun w = (.error e, allSteps.take 6)) ∧
    (∀ e k ep qh qp vs0 haiku emb vs2,
       setup_environment w.env = .ok (k, ep, qh, qp) →
       w.register ep = .ok () →
       w.connect qh qp = .ok vs0 →
       (generate_haiku w.chat).1 = .ok haiku →
       (generate_embedding w.embed haiku).1 = .ok emb →
       w.upsertInject = none →
       store_in_qdrant (ensureCollection vs0).1 "haikus" haiku emb 1 = .ok vs2 →
       w.searchInject = some e →
       mainRun w = (.error e, allSteps.take 7)) := by
  refine ⟨mainRun_trace_take w, ?_, ?_, ?_, ?_, ?_, ?_, ?_⟩
  · intro e he
    simp only [mainRun, he]
    rfl
  · intro e k ep qh qp hEnv hReg
    simp only [mainRun, hEnv, hReg]
    rfl
  · intro e k ep qh qp hEnv hReg hConn
    simp only [mainRun, hEnv, hReg, setup_qdrant, hConn, Except.map]
    rfl
  · intro e k ep qh qp vs0 hEnv hReg hConn hChat
    have hg : (generate_haiku w.chat).1 = .error e := by
      simp only [generate_haiku, hChat]
    have hm : mainRun w = (.error e, allSteps.take 4) := by
      simp only [mainRun, hEnv, hReg, setup_qdrant, hConn, Except.map, hg]
      rfl
    refine ⟨hm, ?_, ?_, ?_⟩ <;> rw [hm] <;> simp [allSteps]
  · intro e k ep qh qp vs0 haiku hEnv hReg hConn hGen hEmb
    simp only [mainRun, hEnv, hReg, setup_qdrant, hConn, Except.map, hGen, hEmb]
    rfl
  · intro e k ep qh qp vs0 haiku emb hEnv hReg hConn hGen hEmb hUp
    simp only [mainRun, hEnv, hReg, setup_qdrant, hConn, Except.map, hGen, hEmb, hUp]
    rfl
  · intro e k ep qh qp vs0 haiku emb vs2 hEnv hReg hConn hGen hEmb hUp hStore hSearch
    simp only [mainRun, hEnv, hReg, setup_qdrant, hConn, Except.map, hGen, hEmb,
      hUp, hStore, hSearch]
    rfl

/-- A world whose chat endpoint fails (for the C2 witness). -/
def c2World : World :=
  { env := ⟨some "sk-live", none, none, none⟩
    register := fun _ => .ok ()
    connect := fun _ _ => .ok ⟨[]⟩
    chat := fun _ => .error (.apiError "rate limited")
    embed := fun _ => .ok ⟨[⟨[1]⟩]⟩
    upsertInject := none
    searchInject := none }

theorem C2_error_propagation_witness :
    mainRun c2World = (.error (.apiError "rate limited"), allSteps.take 4) :=
  ((C2_error_propagation c2World).2.2.2.2.1 (.apiError "rate limited")
    "sk-live" "http://localhost:6006/v1/traces" "localhost" "6333" ⟨[]⟩
    rfl rfl rfl rfl).1

/-- C3 (amended): after `store_in_qdrant` writes point id 1 with a
nonzero vector `v`, that point's score against query `v` is 1, the
maximum over all stored points (Cauchy–Schwarz); and provided no other
pre-existing point ties at score 1, any successful search with query
`v` and a positive limit returns the stored haiku with score 1 as its
first (hence top-scoring) result. -/
theorem C3_self_match_top (vs : VectorStore) (c c' : Collection)
    (haiku : String) (v : List ℚ) (vs' : VectorStore)
    (hc : findCollection vs "haikus" = some c)
    (hv : dot v v ≠ 0)
    (hst : store_in_qdrant vs "haikus" haiku v 1 = .ok vs')
    (hc' : findCollection vs' "haikus" = some c') :
    score v v = 1 ∧
    (∀ p ∈ c'.points, score p.vec v ≤ score v v) ∧
    ((∀ p ∈ c.points, p.id ≠ 1 → score p.vec v < 1) →
       ∀ res limit, 1 ≤ limit →
         search_similar_haikus vs' "haikus" v limit = .ok res →
         res.head? = some (haiku, 1)) := by
  have hs1 : score v v = 1 := score_self v hv
  unfold store_in_qdrant at hst
  rw [hc] at hst
  simp only [Except.ok.injEq] at hst
  have hfu := findCollection_update vs "haikus"
    (fun c0 => { c0 with points := upsertPoint c0.points 1 v [("haiku", haiku)] })
    (fun c0 => rfl)
  have hfind : findCollection vs' "haikus" =
      some { c with points := upsertPoint c.points 1 v [("haiku", haiku)] } := by
    rw [← hst, hfu, hc]
    rfl
  have hcc' : c' = { c with points := upsertPoint c.points 1 v [("haiku", haiku)] } := by
    rw [hfind] at hc'
    exact (Option.some.injEq _ _ ▸ hc').symm
  have hpts : c'.points = upsertPoint c.points 1 v [("haiku", haiku)] := by
    rw [hcc']
  refine ⟨hs1, ?_, ?_⟩
  · intro p hp
    rw [hpts] at hp
    rcases upsertPoint_mem _ _ _ _ p hp with he | ⟨_, _⟩
    · rw [he]
    · rw [hs1]
      exact score_le_one p.vec v
  · intro hstrict res limit hlim hsr
    have hsr2 : buildResults v (searchHits c' v limit) = .ok res := by
      unfold search_similar_haikus at hsr
      rw [hc'] at hsr
      exact hsr
    have hstored_mem : (⟨1, v, [("haiku", haiku)]⟩ : Point) ∈ c'.points := by
      rw [hpts]
      exact upsertPoint_self_mem _ _ _ _
    have hdich : ∀ p ∈ c'.points,
        p = (⟨1, v, [("haiku", haiku)]⟩ : Point) ∨ score p.vec v < 1 := by
      intro p hp
      rw [hpts] at hp
      rcases upsertPoint_mem _ _ _ _ p hp with he | ⟨hmem, hne⟩
      · exact Or.inl he
      · exact Or.inr (hstrict p hmem hne)
    have hperm := List.perm_insertionSort (byScore v) c'.points
    have hsorted := List.sorted_insertionSort (byScore v) c'.points
    have hmem_s : (⟨1, v, [("haiku", haiku)]⟩ : Point) ∈
        c'.points.insertionSort (byScore v) := hperm.mem_iff.mpr hstored_mem
    cases hs : c'.points.insertionSort (byScore v) with
    | nil => rw [hs] at hmem_s; cases hmem_s
    | cons h0 t =>
        have h0mem : h0 ∈ c'.points :=
          hperm.mem_iff.mp (hs ▸ List.mem_cons_self h0 t)
        have hh0 : h0 = (⟨1, v, [("haiku", haiku)]⟩ : Point) := by
          rcases hdich h0 h0mem with he | hlt
          · exact he
          · exfalso
            rw [hs] at hmem_s
            rcases List.mem_cons.mp hmem_s with he2 | ht
            · rw [← he2] at hlt
              simp only at hlt
              rw [hs1] at hlt
              exact lt_irrefl 1 hlt
            · rw [hs] at hsorted
              have hrel := List.rel_of_sorted_cons hsorted _ ht
              unfold byScore at hrel
              simp only at hrel
              rw [hs1] at hrel
              exact absurd (lt_of_le_of_lt hrel hlt) (lt_irrefl 1)
        obtain ⟨n, rfl⟩ : ∃ n, limit = n + 1 :=
          ⟨limit - 1, (Nat.succ_pred_eq_of_pos hlim).symm⟩
        have hhits : searchHits c' v (n + 1) = h0 :: t.take n := by
          unfold searchHits
          rw [hs, List.take_succ_cons]
        rw [hhits] at hsr2
        obtain ⟨txt, rest, hkey, hres⟩ := buildResults_cons_ok _ _ _ _ hsr2
        rw [hh0] at hkey
        simp [lookupKey] at hkey
        have hscore : score h0.vec v = 1 := by
          rw [hh0]
          exact hs1
        rw [hres]
        simp only [List.head?_cons, hscore]
        simp [hkey]

/-- An initially empty "haikus" collection (for the C3 witness). -/
def c3wVs : VectorStore := ⟨[⟨"haikus", 1536, .cosine, []⟩]⟩

/-- The state after storing the witness haiku at id 1. -/
def c3wVs' : VectorStore :=
  ⟨[⟨"haikus", 1536, .cosine, [⟨1, [1], [("haiku", "sea breeze")]⟩]⟩]⟩

theorem C3_self_match_top_witness :
    score ([1] : List ℚ) [1] = 1 ∧
    ([(("sea breeze" : String), (1 : ℚ))]).head? = some ("sea breeze", 1) :=
  have happ := C3_self_match_top c3wVs ⟨"haikus", 1536, .cosine, []⟩
    ⟨"haikus", 1536, .cosine, [⟨1, [1], [("haiku", "sea breeze")]⟩]⟩
    "sea breeze" [1] c3wVs'
    (by norm_num [findCollection, c3wVs])
    (by norm_num [dot])
    (by norm_num [store_in_qdrant, findCollection, updateCollection, upsertPoint,
       c3wVs, c3wVs'])
    (by norm_num [findCollection, c3wVs'])
  ⟨happ.1, happ.2.2 (by simp) [("sea breeze", 1)] 2 (by norm_num)
    (by norm_num [search_similar_haikus, findCollection, searchHits, buildResults,
       lookupKey, List.insertionSort, List.orderedInsert, byScore, score, dot,
       c3wVs'])⟩

/-- A "haikus" collection already holding two points collinear with the
query (for the C3 counterexample). -/
def c3xVs : VectorStore :=
  ⟨[⟨"haikus", 1536, .cosine,
     [⟨2, [1], [("haiku", "older one")]⟩, ⟨3, [1], [("haiku", "older two")]⟩]⟩]⟩

/-- The state after `store_in_qdrant` writes the fresh haiku at id 1. -/
def c3xVs' : VectorStore :=
  ⟨[⟨"haikus", 1536, .cosine,
     [⟨2, [1], [("haiku", "older one")]⟩, ⟨3, [1], [("haiku", "older two")]⟩,
      ⟨1, [1], [("haiku", "fresh")]⟩]⟩]⟩

theorem C3_counterexample :
    store_in_qdrant c3xVs "haikus" "fresh" [1] 1 = .ok c3xVs' ∧
    search_similar_haikus c3xVs' "haikus" [1] 2 =
      .ok [("older one", 1), ("older two", 1)] ∧
    ((("fresh" : String), (1 : ℚ)) ∈
      [(("older one" : String), (1 : ℚ)), ("older two", 1)]) = False := by
  refine ⟨?_, ?_, ?_⟩
  · norm_num [store_in_qdrant, findCollection, updateCollection, upsertPoint,
      c3xVs, c3xVs']
  · norm_num [search_similar_haikus, findCollection, searchHits, buildResults,
      lookupKey, List.insertionSort, List.orderedInsert, byScore, score, dot,
      c3xVs']
  · simp
